import Mathlib

/-!
# Wallet link of the mining pool (`src/wallet_connection.cpp`)

A shallow embedding of `nexuspool::Wallet_connection`.  The object's members become the
fields of a record, every member function becomes a pure function from the state before
the call to a `Step`: the state after it, the calls it made to its collaborators
(connection, pool manager, miner handlers, timer manager) in program order, and whether
it ran into undefined behaviour (`front()` of an empty queue, a call through a null
connection).  Calls to the logger are not recorded.
-/

namespace nexuspool

/-- Modelled from the spec: `packet.hpp` is not among the sources.  Header values form a
closed enumeration (spec section 3); `unknown` stands for a byte that is none of the
recognised constants. -/
inductive Header
  | PING
  | SET_CHANNEL
  | GET_HEIGHT
  | BLOCK_HEIGHT
  | GET_BLOCK
  | BLOCK_DATA
  | SUBMIT_BLOCK
  | ACCEPT
  | REJECT
  | LOGIN
  | LOGIN_SUCCESS
  | LOGIN_FAIL
  | SUBMIT_SHARE
  | BLOCK
  | unknown (byte : Nat)
  deriving DecidableEq, Repr

/-- Modelled from the spec: `Packet` of `packet.hpp` (not among the sources): a header, the
declared 32-bit length and the payload bytes (`m_data`, empty when there is no payload). -/
structure Packet where
  m_header : Header
  m_length : Nat
  m_data : List Nat
  deriving DecidableEq, Repr

/-- Modelled from the spec: a default-constructed `Packet` whose header is then assigned
(`Packet p; p.m_header = h;`, also what `get_packet(h)` returns): control packets carry no
payload, so the length is 0 and the data is empty. -/
def Packet.get_packet (h : Header) : Packet :=
  { m_header := h, m_length := 0, m_data := [] }

/-- Modelled from the spec: `LLP::CBlock` of `LLP/block.hpp` (not among the sources): a block
template with its extracted height; the other fields are kept as opaque bytes. -/
structure CBlock where
  nHeight : Nat
  bytes : List Nat
  deriving DecidableEq, Repr

/-- Modelled from the spec: `common::Mining_mode` (declaration not among the sources); the
two channels of the spec's SET_CHANNEL row. -/
inductive Mining_mode
  | PRIME
  | HASH
  deriving DecidableEq, Repr

/-- Modelled from the spec: `network::Result` (declaration not among the sources): the five
results the connect handler names, and `receive` for every other result (data received). -/
inductive Result
  | connection_declined
  | connection_aborted
  | connection_closed
  | connection_error
  | connection_ok
  | receive
  deriving DecidableEq, Repr

/-- The wallet address `network::Endpoint`, as host and port. -/
structure Endpoint where
  host : String
  port : Nat
  deriving DecidableEq, Repr

/-- The helpers of `packet.hpp` and `LLP/block.hpp` that `wallet_connection.cpp` calls and
whose code is not among the sources.  They are parameters of the embedding, so every
theorem holds for whatever these helpers compute. -/
structure Codec where
  is_valid : Packet → Bool
  bytes2uint : List Nat → Nat
  uint2bytes : Nat → List Nat
  deserialize_block : List Nat → CBlock

/-- Modelled from the spec: a packet is valid iff the header is a recognised constant, the
declared length matches the payload size, and the payload size is at most 2 MiB. -/
def Packet.is_valid (p : Packet) : Bool :=
  (match p.m_header with
    | Header.unknown _ => false
    | _ => true)
  && decide (p.m_length = p.m_data.length)
  && decide (p.m_data.length ≤ 2 * 1024 * 1024)

/-- Modelled from the spec: the 32-bit big-endian value of a byte sequence. -/
def bytes2uint (bytes : List Nat) : Nat :=
  (bytes.foldl (fun acc b => acc * 256 + b % 256) 0) % 2 ^ 32

/-- Modelled from the spec: the four big-endian bytes of a 32-bit value. -/
def uint2bytes (n : Nat) : List Nat :=
  [n / 2 ^ 24 % 256, n / 2 ^ 16 % 256, n / 2 ^ 8 % 256, n % 256]

/-- Modelled from the spec: block deserialisation extracts a 32-bit height from the opaque
template bytes; the layout is not given, this instance reads it from the first four bytes. -/
def deserialize_block (data : List Nat) : CBlock :=
  { nHeight := bytes2uint (data.take 4), bytes := data }

/-- A concrete codec, used to evaluate the embedding on concrete inputs. -/
def spec_codec : Codec :=
  { is_valid := Packet.is_valid
    bytes2uint := bytes2uint
    uint2bytes := uint2bytes
    deserialize_block := deserialize_block }

/-- A call made by the wallet link to one of its collaborators.  `H` is the type of the
miner `Get_block_handler` callbacks. -/
inductive Effect (H : Type)
  | transmit (packet : Packet)
  | set_current_height (height : Nat)
  | set_block (block : CBlock)
  | handler (h : H) (block : CBlock)
  | timer_stop
  | start_connection_retry_timer (interval : Nat) (wallet_endpoint : Endpoint)
  | start_get_height_timer (interval : Nat)
  deriving DecidableEq, Repr

/-- The members of `Wallet_connection` that its member functions read or write.
`m_pool_manager` is true while the weak pointer can still be locked, `m_connection` is true
while the connection pointer is non-null. -/
structure Wallet_connection (H : Type) where
  m_pool_manager : Bool
  m_mining_mode : Mining_mode
  m_connection_retry_interval : Nat
  m_get_height_interval : Nat
  m_connection : Bool
  m_current_height : Nat
  m_get_block_pool_manager : Bool
  m_pending_get_block_handlers : List H
  deriving DecidableEq, Repr

/-- The outcome of one member function call: the state after it, the collaborator calls it
made in order, and `fault` when it reached undefined behaviour (then `state` and `effects`
are those up to that point). -/
structure Step (H : Type) where
  state : Wallet_connection H
  effects : List (Effect H)
  fault : Bool
  deriving DecidableEq, Repr

/-- The constructor: no connection yet, height 0, flag clear, empty handler queue. -/
def Wallet_connection.ctor {H : Type} (pool_manager : Bool) (mining_mode : Mining_mode)
    (connection_retry_interval get_height_interval : Nat) : Wallet_connection H :=
  { m_pool_manager := pool_manager
    m_mining_mode := mining_mode
    m_connection_retry_interval := connection_retry_interval
    m_get_height_interval := get_height_interval
    m_connection := false
    m_current_height := 0
    m_get_block_pool_manager := false
    m_pending_get_block_handlers := [] }

/-- `Wallet_connection::stop`: stops the timers and resets the connection. -/
def stop {H : Type} (s : Wallet_connection H) : Step H :=
  { state := { s with m_connection := false }
    effects := [Effect.timer_stop]
    fault := false }

/-- `Wallet_connection::retry_connect`: drops the connection and starts the retry timer. -/
def retry_connect {H : Type} (s : Wallet_connection H) (wallet_endpoint : Endpoint) : Step H :=
  { state := { s with m_connection := false }
    effects := [Effect.start_connection_retry_timer s.m_connection_retry_interval wallet_endpoint]
    fault := false }

/-- `Wallet_connection::process_data`, on the packet built from the receive buffer. -/
def process_data {H : Type} (cx : Codec) (s : Wallet_connection H) (packet : Packet) : Step H :=
  if s.m_connection = false then
    { state := s, effects := [], fault := false }
  else if cx.is_valid packet = false then
    { state := s, effects := [], fault := false }
  else if packet.m_header = Header.PING then
    { state := s, effects := [Effect.transmit (Packet.get_packet Header.PING)], fault := false }
  else if packet.m_header = Header.BLOCK_HEIGHT then
    if s.m_pool_manager = false then
      { state := s, effects := [], fault := false }
    else
      let height := cx.bytes2uint packet.m_data
      if height > s.m_current_height then
        { state := { s with
            m_current_height := height
            m_get_block_pool_manager := true
            m_pending_get_block_handlers := [] }
          effects := [Effect.set_current_height height,
                      Effect.transmit (Packet.get_packet Header.GET_BLOCK)]
          fault := false }
      else
        { state := s, effects := [Effect.set_current_height s.m_current_height], fault := false }
  else if packet.m_header = Header.BLOCK_DATA then
    let block := cx.deserialize_block packet.m_data
    if block.nHeight = s.m_current_height then
      if s.m_get_block_pool_manager = true then
        if s.m_pool_manager = false then
          { state := s, effects := [], fault := false }
        else
          { state := { s with m_get_block_pool_manager := false }
            effects := [Effect.set_block block]
            fault := false }
      else
        match s.m_pending_get_block_handlers with
        | [] => { state := s, effects := [], fault := true }
        | handler :: rest =>
          { state := { s with m_pending_get_block_handlers := rest }
            effects := [Effect.handler handler block]
            fault := false }
    else
      { state := s, effects := [], fault := false }
  else if packet.m_header = Header.ACCEPT then
    { state := s, effects := [], fault := false }
  else if packet.m_header = Header.REJECT then
    { state := s, effects := [Effect.transmit (Packet.get_packet Header.GET_BLOCK)], fault := false }
  else
    { state := s, effects := [], fault := false }

/-- `Wallet_connection::submit_block`: the connection is used without a null check. -/
def submit_block {H : Type} (s : Wallet_connection H) (block_data nonce : List Nat) : Step H :=
  let packet : Packet :=
    { m_header := Header.SUBMIT_BLOCK, m_length := 72, m_data := block_data ++ nonce }
  if s.m_connection = true then
    { state := s, effects := [Effect.transmit packet], fault := false }
  else
    { state := s, effects := [], fault := true }

/-- `Wallet_connection::get_block`: transmits GET_BLOCK and appends the handler. -/
def get_block {H : Type} (s : Wallet_connection H) (handler : H) : Step H :=
  if s.m_connection = false then
    { state := s, effects := [], fault := false }
  else
    { state := { s with
        m_pending_get_block_handlers := s.m_pending_get_block_handlers ++ [handler] }
      effects := [Effect.transmit (Packet.get_packet Header.GET_BLOCK)]
      fault := false }

/-- The handler that `Wallet_connection::connect` registers with the socket, called with the
connection result and the receive buffer. -/
def connect_handler {H : Type} (cx : Codec) (wallet_endpoint : Endpoint)
    (s : Wallet_connection H) (result : Result) (receive_buffer : Packet) : Step H :=
  if result = Result.connection_declined ∨ result = Result.connection_aborted ∨
      result = Result.connection_closed ∨ result = Result.connection_error then
    retry_connect s wallet_endpoint
  else if result = Result.connection_ok then
    let packet : Packet :=
      { m_header := Header.SET_CHANNEL
        m_length := 4
        m_data := cx.uint2bytes (if s.m_mining_mode = Mining_mode.PRIME then 1 else 2) }
    if s.m_connection = true then
      { state := s
        effects := [Effect.transmit packet, Effect.start_get_height_timer s.m_get_height_interval]
        fault := false }
    else
      { state := s, effects := [], fault := true }
  else
    process_data cx s receive_buffer

/-- `Wallet_connection::connect`: `socket_connect` tells whether the socket returned a
connection; the returned flag is the function's result. -/
def connect {H : Type} (s : Wallet_connection H) (socket_connect : Bool) :
    Wallet_connection H × Bool :=
  if socket_connect = false then (s, false)
  else ({ s with m_connection := true }, true)

/-- What can happen to a link between two packets: a miner asks for a block, or the wallet
sends a packet. -/
inductive Event (H : Type)
  | get_block (handler : H)
  | receive (packet : Packet)
  deriving DecidableEq, Repr

/-- One event applied to the link. -/
def Event.apply {H : Type} (cx : Codec) (s : Wallet_connection H) : Event H → Step H
  | Event.get_block handler => nexuspool.get_block s handler
  | Event.receive packet => process_data cx s packet

/-- A sequence of events applied in order; the run ends at the first fault. -/
def run {H : Type} (cx : Codec) : Wallet_connection H → List (Event H) → Step H
  | s, [] => { state := s, effects := [], fault := false }
  | s, e :: es =>
    let r := Event.apply cx s e
    if r.fault = true then r
    else
      let r' := run cx r.state es
      { state := r'.state, effects := r.effects ++ r'.effects, fault := r'.fault }

/-- Whether an effect hands a block to a consumer (pool manager or miner handler). -/
def Effect.is_delivery {H : Type} : Effect H → Bool
  | Effect.set_block _ => true
  | Effect.handler _ _ => true
  | _ => false

/-- Whether an effect transmits a packet with header `hd`. -/
def Effect.transmits {H : Type} (hd : Header) : Effect H → Bool
  | Effect.transmit p => decide (p.m_header = hd)
  | _ => false

/-- Whether an event can make the link send GET_BLOCK: a get_block call, or a received
BLOCK_HEIGHT or REJECT packet. -/
def Event.requests_block {H : Type} : Event H → Bool
  | Event.get_block _ => true
  | Event.receive p => decide (p.m_header = Header.BLOCK_HEIGHT ∨ p.m_header = Header.REJECT)

/-- Whether an event is a received BLOCK_DATA packet. -/
def Event.is_block_data {H : Type} : Event H → Bool
  | Event.get_block _ => false
  | Event.receive p => decide (p.m_header = Header.BLOCK_DATA)

/-- Whether an effect is a call of a miner handler. -/
def Effect.is_handler_call {H : Type} : Effect H → Bool
  | Effect.handler _ _ => true
  | _ => false

/-- The number of GET_BLOCK packets among the transmitted packets. -/
def get_blocks_sent {H : Type} (effects : List (Effect H)) : Nat :=
  (effects.filter (Effect.transmits Header.GET_BLOCK)).length

/-- The number of blocks handed to a consumer. -/
def deliveries {H : Type} (effects : List (Effect H)) : Nat :=
  (effects.filter Effect.is_delivery).length

/-- A connected link at height 100 with the pool manager alive, the flag clear and the given
pending handlers (handlers are numbered). -/
def link100 (pending : List Nat) : Wallet_connection Nat :=
  { m_pool_manager := true
    m_mining_mode := Mining_mode.PRIME
    m_connection_retry_interval := 5
    m_get_height_interval := 2
    m_connection := true
    m_current_height := 100
    m_get_block_pool_manager := false
    m_pending_get_block_handlers := pending }

/-- A BLOCK_HEIGHT packet carrying `h`, for `spec_codec`. -/
def block_height_packet (h : Nat) : Packet :=
  { m_header := Header.BLOCK_HEIGHT, m_length := 4, m_data := uint2bytes h }

/-- A BLOCK_DATA packet whose block has height `h`, for `spec_codec`. -/
def block_data_packet (h : Nat) : Packet :=
  { m_header := Header.BLOCK_DATA, m_length := 4, m_data := uint2bytes h }

/-- A wallet endpoint. -/
def wallet_endpoint0 : Endpoint :=
  { host := "127.0.0.1", port := 9325 }

/-- The link `link100 pending` after the pool manager has been destroyed while the
pool-manager consumer flag is set. -/
def link100_pool_manager_gone (pending : List Nat) : Wallet_connection Nat :=
  { link100 pending with m_pool_manager := false, m_get_block_pool_manager := true }

/-- The number of received BLOCK_DATA packets in a sequence of events. -/
def block_data_received {H : Type} (es : List (Event H)) : Nat :=
  (es.filter Event.is_block_data).length

/-- The number of events in a sequence that can make the link send GET_BLOCK. -/
def block_requests {H : Type} (es : List (Event H)) : Nat :=
  (es.filter Event.requests_block).length

/-- The link right after construction and a successful `connect`. -/
def connected_link : Wallet_connection Nat :=
  (connect (Wallet_connection.ctor true Mining_mode.PRIME 5 2) true).1

/-- The channel number of a mining mode in the words of the spec's SET_CHANNEL row:
1 = PRIME, 2 = HASH. -/
def spec_channel : Mining_mode → Nat
  | Mining_mode.PRIME => 1
  | Mining_mode.HASH => 2

/-- The connect handler called once for each result of a list, in order, each time with the
same endpoint and receive buffer; the run ends at the first fault. -/
def handle_results {H : Type} (cx : Codec) (wallet_endpoint : Endpoint) (receive_buffer : Packet) :
    Wallet_connection H → List Result → Step H
  | s, [] => { state := s, effects := [], fault := false }
  | s, r :: rs =>
    let a := connect_handler cx wallet_endpoint s r receive_buffer
    if a.fault = true then a
    else
      let b := handle_results cx wallet_endpoint receive_buffer a.state rs
      { state := b.state, effects := a.effects ++ b.effects, fault := b.fault }

/-- Whether a connect result is one of the four failures the handler names. -/
def Result.is_failure : Result → Bool
  | Result.connection_declined => true
  | Result.connection_aborted => true
  | Result.connection_closed => true
  | Result.connection_error => true
  | _ => false

/-- Whether an effect starts the connection-retry timer. -/
def Effect.is_retry_timer {H : Type} : Effect H → Bool
  | Effect.start_connection_retry_timer _ _ => true
  | _ => false

/-- A packet with a header that is no recognised constant (never valid for `spec_codec`). -/
def unknown_packet : Packet :=
  { m_header := Header.unknown 77, m_length := 0, m_data := [] }

/-- The link `link100 pending` after the pool manager has been destroyed, flag clear. -/
def link100_no_pool_manager (pending : List Nat) : Wallet_connection Nat :=
  { link100 pending with m_pool_manager := false }

/-! ## Persistence commands for the configuration (`persistance/command`) -/

/-- `Column_sqlite` of `command_impl.hpp`: a column value tagged with its datatype; a double
is kept as its bit pattern. -/
inductive persistance.Column_sqlite
  | string (v : String)
  | int32 (v : Int)
  | int64 (v : Int)
  | double_t (bits : Nat)
  deriving DecidableEq, Repr

/-- `Result_sqlite` of `command_impl.hpp`: the rows a command returned, each a list of
columns. -/
structure persistance.Result_sqlite where
  m_rows : List (List persistance.Column_sqlite)
  deriving DecidableEq, Repr

/-- Modelled from the spec: a row of the table
`config(id INT PK, version TEXT, mining_mode TEXT, fee INT, difficulty_divider INT)`; the
code that defines and fills it is not among the sources. -/
structure persistance.Config_row where
  id : Nat
  version : String
  mining_mode : String
  fee : Int
  difficulty_divider : Int
  deriving DecidableEq, Repr

/-- Modelled from the spec: the `Config` value that `get_config` returns (declaration not
among the sources), with the members the test reads. -/
structure persistance.Config_data where
  m_version : String
  m_mining_mode : String
  m_fee : Int
  m_difficulty_divider : Int
  deriving DecidableEq, Repr

/-- Modelled from the spec: the lookup behind `get_config` (not among the sources), which
returns the stored configuration rows in id order as a `Result_sqlite`. -/
def persistance.select_config (table : List persistance.Config_row) :
    persistance.Result_sqlite :=
  { m_rows := table.map (fun r =>
      [persistance.Column_sqlite.string r.version,
       persistance.Column_sqlite.string r.mining_mode,
       persistance.Column_sqlite.int32 r.fee,
       persistance.Column_sqlite.int32 r.difficulty_divider]) }

/-- Modelled from the spec: `get_config() → Config` (not among the sources).  A lookup that
returns no rows gives the domain-empty value (empty strings); otherwise the first row is
read. -/
def persistance.get_config (table : List persistance.Config_row) : persistance.Config_data :=
  match (persistance.select_config table).m_rows with
  | [persistance.Column_sqlite.string version, persistance.Column_sqlite.string mining_mode,
      persistance.Column_sqlite.int32 fee, persistance.Column_sqlite.int32 difficulty_divider]
      :: _ =>
    { m_version := version, m_mining_mode := mining_mode, m_fee := fee,
      m_difficulty_divider := difficulty_divider }
  | _ => { m_version := "", m_mining_mode := "", m_fee := 0, m_difficulty_divider := 0 }

/-- Modelled from the spec: `create_config(mode, fee, div) → bool` (not among the sources):
inserts a configuration row with the next id and reports success.  `version` is the version
text the command writes, which the spec does not give. -/
def persistance.create_config (version : String) (table : List persistance.Config_row)
    (mining_mode : String) (fee difficulty_divider : Int) :
    List persistance.Config_row × Bool :=
  (table ++ [{ id := table.length + 1, version := version, mining_mode := mining_mode,
               fee := fee, difficulty_divider := difficulty_divider }], true)

/-- Modelled from the spec: `update_config(mode, fee, div) → bool` (not among the sources):
the command names no row, so it overwrites mode, fee and divider of the stored
configuration rows and reports success. -/
def persistance.update_config (table : List persistance.Config_row)
    (mining_mode : String) (fee difficulty_divider : Int) :
    List persistance.Config_row × Bool :=
  (table.map (fun r => { r with mining_mode := mining_mode, fee := fee,
                                difficulty_divider := difficulty_divider }), true)

/-! ## `memory::copy` (`TAO/Util/memory.h`) -/

/-- How a call of `memory::copy` ends: it returns, or it throws `std::domain_error` with
the given message. -/
inductive memory.Outcome
  | returned
  | thrown (what : String)
  deriving DecidableEq, Repr

/-- The memory after a call of `memory::copy` (cells of the element type, addressed by
element index) and how the call ended. -/
structure memory.Copy_step (α : Type) where
  mem : Nat → α
  outcome : memory.Outcome

/-- The loop of the standard library's `std::copy`: `n` elements are assigned one by one,
starting from `first` and proceeding to the last. -/
def memory.std_copy_loop {α : Type} : (Nat → α) → Nat → Nat → Nat → (Nat → α)
  | mem, _, _, 0 => mem
  | mem, first, d_first, n + 1 =>
    memory.std_copy_loop (Function.update mem d_first (mem first)) (first + 1) (d_first + 1) n

/-- The standard library's `std::copy(first, last, d_first)` as the element-wise loop it is
for a class type: the elements of `[first, last)` are assigned in order to the cells from
`d_first` on, also when the two ranges overlap (the C++ standard gives no guarantee on the
result when `d_first` lies within `[first, last)`). -/
def memory.std_copy {α : Type} (mem : Nat → α) (first last d_first : Nat) : Nat → α :=
  memory.std_copy_loop mem first d_first (last - first)

/-- `memory::copy`: the three checks, then `std::copy`.  Pointers are element indices into
`mem`, the pointer differences are signed. -/
def memory.copy {α : Type} (mem : Nat → α) (src_begin src_end dst_begin dst_end : Nat) :
    memory.Copy_step α :=
  if src_end < src_begin then
    { mem := mem, outcome := memory.Outcome.thrown "src end iterator less than src begin" }
  else if dst_end < dst_begin then
    { mem := mem, outcome := memory.Outcome.thrown "dst end iterator less than dst begin" }
  else if (src_end : Int) - (src_begin : Int) ≠ (dst_end : Int) - (dst_begin : Int) then
    { mem := mem, outcome := memory.Outcome.thrown "src size mismatch with dst size" }
  else
    { mem := memory.std_copy mem src_begin src_end dst_begin
      outcome := memory.Outcome.returned }

/-- A sample memory: cell `a` holds `10 * a`. -/
def memory.sample_mem : Nat → Nat :=
  fun a => 10 * a

/-! ## Shared lemmas -/

theorem process_data_height_le {H : Type} (cx : Codec) (s : Wallet_connection H)
    (packet : Packet) :
    s.m_current_height ≤ (process_data cx s packet).state.m_current_height := by
  simp only [process_data]
  repeat' split
  all_goals first
    | exact le_refl _
    | (rename_i h; exact le_of_lt h)

theorem get_block_height_eq {H : Type} (s : Wallet_connection H) (handler : H) :
    (get_block s handler).state.m_current_height = s.m_current_height := by
  unfold get_block
  split_ifs <;> rfl

theorem apply_height_le {H : Type} (cx : Codec) (s : Wallet_connection H) (e : Event H) :
    s.m_current_height ≤ (Event.apply cx s e).state.m_current_height := by
  cases e with
  | get_block handler => exact le_of_eq (get_block_height_eq s handler).symm
  | receive packet => exact process_data_height_le cx s packet

theorem run_height_le {H : Type} (cx : Codec) (es : List (Event H)) :
    ∀ s : Wallet_connection H, s.m_current_height ≤ (run cx s es).state.m_current_height := by
  induction es with
  | nil => intro s; exact le_refl _
  | cons e es ih =>
    intro s
    have h1 := apply_height_le cx s e
    simp only [run]
    split_ifs with hf
    · exact h1
    · exact le_trans h1 (ih _)

theorem run_append_height_le {H : Type} (cx : Codec) (es es' : List (Event H)) :
    ∀ s : Wallet_connection H,
      (run cx s es).state.m_current_height ≤ (run cx s (es ++ es')).state.m_current_height := by
  induction es with
  | nil => intro s; exact run_height_le cx es' s
  | cons e es ih =>
    intro s
    simp only [run, List.cons_append]
    split_ifs with hf
    · exact le_refl _
    · exact ih _

theorem get_blocks_sent_append {H : Type} (xs ys : List (Effect H)) :
    get_blocks_sent (xs ++ ys) = get_blocks_sent xs + get_blocks_sent ys := by
  simp [get_blocks_sent]

theorem process_data_get_blocks_sent_le {H : Type} (cx : Codec) (s : Wallet_connection H)
    (packet : Packet) :
    get_blocks_sent (process_data cx s packet).effects
      ≤ (if Event.requests_block (Event.receive packet : Event H) = true then 1 else 0) := by
  simp only [process_data]
  repeat' split
  all_goals simp_all [get_blocks_sent, Effect.transmits, Packet.get_packet, Event.requests_block]

theorem apply_get_blocks_sent_le {H : Type} (cx : Codec) (s : Wallet_connection H)
    (e : Event H) :
    get_blocks_sent (Event.apply cx s e).effects
      ≤ (if Event.requests_block e = true then 1 else 0) := by
  cases e with
  | get_block handler =>
    simp only [Event.apply, get_block]
    split <;> simp [get_blocks_sent, Effect.transmits, Packet.get_packet, Event.requests_block]
  | receive packet => exact process_data_get_blocks_sent_le cx s packet

theorem block_requests_cons {H : Type} (e : Event H) (es : List (Event H)) :
    block_requests (e :: es)
      = (if Event.requests_block e = true then 1 else 0) + block_requests es := by
  simp only [block_requests, List.filter_cons]
  split <;> simp [Nat.add_comm]

theorem run_get_blocks_sent_le {H : Type} (cx : Codec) (es : List (Event H)) :
    ∀ s : Wallet_connection H, get_blocks_sent (run cx s es).effects ≤ block_requests es := by
  induction es with
  | nil => intro s; simp [run, get_blocks_sent]
  | cons e es ih =>
    intro s
    have h1 := apply_get_blocks_sent_le cx s e
    have h2 := ih (Event.apply cx s e).state
    rw [block_requests_cons]
    generalize (if Event.requests_block e = true then 1 else 0) = k at h1 ⊢
    simp only [run]
    split_ifs with hf
    · exact le_trans h1 (Nat.le_add_right _ _)
    · simp only [get_blocks_sent_append]
      exact Nat.add_le_add h1 h2

theorem run_get_block_calls {H : Type} (cx : Codec) (hs : List H) :
    ∀ s : Wallet_connection H, s.m_connection = true →
      (run cx s (hs.map Event.get_block)).fault = false
      ∧ get_blocks_sent (run cx s (hs.map Event.get_block)).effects = hs.length
      ∧ (run cx s (hs.map Event.get_block)).state.m_pending_get_block_handlers
          = s.m_pending_get_block_handlers ++ hs := by
  induction hs with
  | nil => intro s _; simp [run, get_blocks_sent]
  | cons h hs ih =>
    intro s hconn
    have hstep : Event.apply cx s (Event.get_block h) =
        { state := { s with
            m_pending_get_block_handlers := s.m_pending_get_block_handlers ++ [h] }
          effects := [Effect.transmit (Packet.get_packet Header.GET_BLOCK)]
          fault := false } := by
      simp [Event.apply, get_block, hconn]
    obtain ⟨i1, i2, i3⟩ := ih { s with
      m_pending_get_block_handlers := s.m_pending_get_block_handlers ++ [h] } hconn
    simp only [List.map_cons, run, hstep]
    refine ⟨by simpa using i1, ?_, by simpa using i3⟩
    simp only [Bool.false_eq_true, if_false, get_blocks_sent_append, i2]
    simp [get_blocks_sent, Effect.transmits, Packet.get_packet]
    omega

theorem connect_handler_failure {H : Type} (cx : Codec) (ep : Endpoint)
    (s : Wallet_connection H) (result : Result) (receive_buffer : Packet)
    (hres : result.is_failure = true) :
    connect_handler cx ep s result receive_buffer =
      { state := { s with m_connection := false }
        effects := [Effect.start_connection_retry_timer s.m_connection_retry_interval ep]
        fault := false } := by
  cases result <;> simp_all [connect_handler, retry_connect, Result.is_failure]

theorem handle_results_failures {H : Type} (cx : Codec) (ep : Endpoint) (buf : Packet)
    (rs : List Result) :
    ∀ s : Wallet_connection H, (∀ r ∈ rs, r.is_failure = true) →
      (handle_results cx ep buf s rs).fault = false
      ∧ (handle_results cx ep buf s rs).effects
          = rs.map (fun _ => Effect.start_connection_retry_timer s.m_connection_retry_interval ep)
      ∧ (handle_results cx ep buf s rs).state.m_current_height = s.m_current_height := by
  induction rs with
  | nil => intro s _; simp [handle_results]
  | cons r rs ih =>
    intro s hall
    have hr : r.is_failure = true := hall r (List.mem_cons_self r rs)
    have hrest : ∀ x ∈ rs, x.is_failure = true := fun x hx => hall x (List.mem_cons_of_mem r hx)
    obtain ⟨i1, i2, i3⟩ := ih { s with m_connection := false } hrest
    simp only [handle_results, connect_handler_failure cx ep s r buf hr]
    exact ⟨by simpa using i1, by simpa using i2, by simpa using i3⟩

theorem std_copy_loop_frame {α : Type} (n : Nat) :
    ∀ (mem : Nat → α) (first d_first a : Nat), (a < d_first ∨ d_first + n ≤ a) →
      memory.std_copy_loop mem first d_first n a = mem a := by
  induction n with
  | zero => intro mem first d_first a _; rfl
  | succ n ih =>
    intro mem first d_first a ha
    have hne : a ≠ d_first := by omega
    have h1 : a < d_first + 1 ∨ d_first + 1 + n ≤ a := by omega
    simp only [memory.std_copy_loop]
    rw [ih _ _ _ _ h1, Function.update_noteq hne]

theorem std_copy_loop_values {α : Type} (n : Nat) :
    ∀ (mem : Nat → α) (first d_first : Nat), (d_first < first ∨ first + n ≤ d_first) →
      ∀ i, i < n → memory.std_copy_loop mem first d_first n (d_first + i) = mem (first + i) := by
  induction n with
  | zero => intro mem first d_first _ i hi; omega
  | succ n ih =>
    intro mem first d_first hsep i hi
    simp only [memory.std_copy_loop]
    cases i with
    | zero =>
      rw [std_copy_loop_frame n _ _ _ _ (Or.inl (by omega))]
      simp
    | succ k =>
      have hsep' : d_first + 1 < first + 1 ∨ first + 1 + n ≤ d_first + 1 := by omega
      have hk : k < n := by omega
      have hidx : d_first + (k + 1) = d_first + 1 + k := by omega
      have hsrc : first + (k + 1) = first + 1 + k := by omega
      have hne : first + 1 + k ≠ d_first := by omega
      rw [hidx, hsrc, ih _ _ _ hsep' k hk, Function.update_noteq hne]

/-! ## The claims -/

/-- C1, monotone height: for every link state and every received packet, valid or not, the
current height after `process_data` is at least the height before it; every value passed
to the pool manager's `set_current_height` is the link's height at that moment; and along
every sequence of events the height observed after a prefix is at most the height observed
after any extension of it. -/
theorem C1_monotone_height {H : Type} (cx : Codec) (s : Wallet_connection H) (packet : Packet)
    (es es' : List (Event H)) :
    s.m_current_height ≤ (process_data cx s packet).state.m_current_height
    ∧ (∀ v, Effect.set_current_height v ∈ (process_data cx s packet).effects →
        v = (process_data cx s packet).state.m_current_height)
    ∧ (run cx s es).state.m_current_height ≤ (run cx s (es ++ es')).state.m_current_height := by
  refine ⟨process_data_height_le cx s packet, ?_, run_append_height_le cx es es' s⟩
  intro v
  simp only [process_data]
  repeat' split
  all_goals simp

/-- Witness of C1: a BLOCK_HEIGHT packet carrying 101 at height 100 passes 101, the new
height, to the pool manager. -/
theorem C1_monotone_height_witness :
    Effect.set_current_height 101
        ∈ (process_data spec_codec (link100 []) (block_height_packet 101)).effects
    ∧ 101 = (process_data spec_codec (link100 []) (block_height_packet 101)).state.m_current_height :=
  ⟨by decide,
   (C1_monotone_height spec_codec (link100 []) (block_height_packet 101) [] []).2.1 101
     (by decide)⟩

/-- C2, template freshness: for every link state and every packet, a block that
`process_data` hands to a consumer (the pool manager's `set_block` or a pending miner
handler) comes from a BLOCK_DATA packet, is the deserialised payload, and its height equals
the link's current height, before and after the call. -/
theorem C2_template_freshness {H : Type} (cx : Codec) (s : Wallet_connection H)
    (packet : Packet) (b : CBlock)
    (hdel : Effect.set_block b ∈ (process_data cx s packet).effects
      ∨ ∃ h, Effect.handler h b ∈ (process_data cx s packet).effects) :
    packet.m_header = Header.BLOCK_DATA
    ∧ b = cx.deserialize_block packet.m_data
    ∧ b.nHeight = s.m_current_height
    ∧ b.nHeight = (process_data cx s packet).state.m_current_height := by
  revert hdel
  simp only [process_data]
  repeat' split
  all_goals simp_all

/-- Witness of C2: the block of height 100 delivered to miner handler 7 at height 100. -/
theorem C2_template_freshness_witness :
    (block_data_packet 100).m_header = Header.BLOCK_DATA
    ∧ (deserialize_block (uint2bytes 100)) = spec_codec.deserialize_block (block_data_packet 100).m_data
    ∧ (deserialize_block (uint2bytes 100)).nHeight = (link100 [7]).m_current_height
    ∧ (deserialize_block (uint2bytes 100)).nHeight
        = (process_data spec_codec (link100 [7]) (block_data_packet 100)).state.m_current_height :=
  C2_template_freshness spec_codec (link100 [7]) (block_data_packet 100)
    (deserialize_block (uint2bytes 100)) (Or.inr ⟨7, by decide⟩)

/-- C3 as stated fails: a valid BLOCK_DATA packet whose block height equals the current
height, received while the consumer flag is set and the pool manager is gone, is delivered
to no consumer at all. -/
theorem C3_single_consumer_counterexample :
    (link100_pool_manager_gone [7]).m_connection = true
    ∧ spec_codec.is_valid (block_data_packet 100) = true
    ∧ (block_data_packet 100).m_header = Header.BLOCK_DATA
    ∧ (spec_codec.deserialize_block (block_data_packet 100).m_data).nHeight
        = (link100_pool_manager_gone [7]).m_current_height
    ∧ ¬ deliveries
        (process_data spec_codec (link100_pool_manager_gone [7]) (block_data_packet 100)).effects
          = 1 := by
  decide

/-- C3 amended, single logical consumer: for every valid BLOCK_DATA packet received on a
connected link whose block height equals the current height: if the consumer flag is set
and the pool manager is alive, only `set_block` receives the block, the flag is cleared and
the miner FIFO is unchanged; if the flag is set and the pool manager is gone, nothing is
delivered and nothing changes; if the flag is clear and the FIFO is non-empty, only its
head receives the block, the head is removed and the rest keeps its order.  `get_block` on
a connected link appends its handler at the back, so the head is the oldest request. -/
theorem C3_single_consumer {H : Type} (cx : Codec) (s : Wallet_connection H) (packet : Packet)
    (hconn : s.m_connection = true) (hvalid : cx.is_valid packet = true)
    (hhdr : packet.m_header = Header.BLOCK_DATA)
    (hheight : (cx.deserialize_block packet.m_data).nHeight = s.m_current_height) :
    (s.m_get_block_pool_manager = true → s.m_pool_manager = true →
      process_data cx s packet =
        { state := { s with m_get_block_pool_manager := false }
          effects := [Effect.set_block (cx.deserialize_block packet.m_data)]
          fault := false })
    ∧ (s.m_get_block_pool_manager = true → s.m_pool_manager = false →
      process_data cx s packet = { state := s, effects := [], fault := false })
    ∧ (s.m_get_block_pool_manager = false → ∀ handler rest,
      s.m_pending_get_block_handlers = handler :: rest →
      process_data cx s packet =
        { state := { s with m_pending_get_block_handlers := rest }
          effects := [Effect.handler handler (cx.deserialize_block packet.m_data)]
          fault := false })
    ∧ (∀ handler, (get_block s handler).state.m_pending_get_block_handlers
        = s.m_pending_get_block_handlers ++ [handler]) := by
  refine ⟨?_, ?_, ?_, ?_⟩
  · intro hflag hpm
    simp [process_data, hconn, hvalid, hhdr, hheight, hflag, hpm]
  · intro hflag hpm
    simp [process_data, hconn, hvalid, hhdr, hheight, hflag, hpm]
  · intro hflag handler rest hq
    simp [process_data, hconn, hvalid, hhdr, hheight, hflag, hq]
  · intro handler
    simp [get_block, hconn]

/-- Witness of C3 amended: at height 100 with handlers 7 and 8 pending and the flag clear,
the block goes to handler 7 only and handler 8 stays queued. -/
theorem C3_single_consumer_witness :
    process_data spec_codec (link100 [7, 8]) (block_data_packet 100) =
      { state := link100 [8]
        effects := [Effect.handler 7 (spec_codec.deserialize_block (block_data_packet 100).m_data)]
        fault := false } :=
  (C3_single_consumer spec_codec (link100 [7, 8]) (block_data_packet 100)
    (by decide) (by decide) (by decide) (by decide)).2.2.1 (by decide) 7 [8] (by decide)

/-- C4, new height takes pool-manager priority: on a connected link with the pool manager
alive, a valid BLOCK_HEIGHT packet carrying a height above the current one sets the current
height to it, passes it to `set_current_height`, transmits exactly one GET_BLOCK packet,
sets the pool-manager consumer flag and leaves the miner FIFO empty, whatever it held. -/
theorem C4_new_height_priority {H : Type} (cx : Codec) (s : Wallet_connection H)
    (packet : Packet) (hconn : s.m_connection = true) (hvalid : cx.is_valid packet = true)
    (hhdr : packet.m_header = Header.BLOCK_HEIGHT) (hpm : s.m_pool_manager = true)
    (hgt : cx.bytes2uint packet.m_data > s.m_current_height) :
    process_data cx s packet =
      { state := { s with
          m_current_height := cx.bytes2uint packet.m_data
          m_get_block_pool_manager := true
          m_pending_get_block_handlers := [] }
        effects := [Effect.set_current_height (cx.bytes2uint packet.m_data),
                    Effect.transmit (Packet.get_packet Header.GET_BLOCK)]
        fault := false }
    ∧ get_blocks_sent (process_data cx s packet).effects = 1 := by
  have h : process_data cx s packet =
      { state := { s with
          m_current_height := cx.bytes2uint packet.m_data
          m_get_block_pool_manager := true
          m_pending_get_block_handlers := [] }
        effects := [Effect.set_current_height (cx.bytes2uint packet.m_data),
                    Effect.transmit (Packet.get_packet Header.GET_BLOCK)]
        fault := false } := by
    simp [process_data, hconn, hvalid, hhdr, hpm, hgt]
  refine ⟨h, ?_⟩
  rw [h]
  simp [get_blocks_sent, Effect.transmits, Packet.get_packet]

/-- Witness of C4: height 101 arriving at height 100 while handlers 7 and 8 are pending. -/
theorem C4_new_height_priority_witness :
    process_data spec_codec (link100 [7, 8]) (block_height_packet 101) =
      { state := { link100 [] with m_current_height := 101, m_get_block_pool_manager := true }
        effects := [Effect.set_current_height 101,
                    Effect.transmit (Packet.get_packet Header.GET_BLOCK)]
        fault := false }
    ∧ get_blocks_sent (process_data spec_codec (link100 [7, 8]) (block_height_packet 101)).effects
        = 1 :=
  C4_new_height_priority spec_codec (link100 [7, 8]) (block_height_packet 101)
    (by decide) (by decide) (by decide) (by decide) (by decide)

/-- C6 as stated fails: on the freshly connected link two `get_block` calls transmit two
GET_BLOCK packets while no BLOCK_DATA has been received, so two requests are outstanding. -/
theorem C6_outstanding_get_block_counterexample :
    (run spec_codec connected_link [Event.get_block 1, Event.get_block 2]).fault = false
    ∧ ¬ get_blocks_sent
          (run spec_codec connected_link [Event.get_block 1, Event.get_block 2]).effects
        ≤ block_data_received [(Event.get_block 1 : Event Nat), Event.get_block 2] + 1 := by
  decide

/-- C6 amended: along every sequence of `get_block` calls and received packets, from any
link state, the number of GET_BLOCK packets transmitted is at most the number of
`get_block` calls plus received BLOCK_HEIGHT and REJECT packets (each transmits at most
one, nothing else transmits any); the outstanding requests are not bounded by one: on a
connected link `k` consecutive `get_block` calls transmit `k` GET_BLOCK packets and queue
`k` handlers. -/
theorem C6_outstanding_get_block {H : Type} (cx : Codec) (s : Wallet_connection H)
    (es : List (Event H)) (hs : List H) :
    get_blocks_sent (run cx s es).effects ≤ block_requests es
    ∧ (s.m_connection = true →
        (run cx s (hs.map Event.get_block)).fault = false
        ∧ get_blocks_sent (run cx s (hs.map Event.get_block)).effects = hs.length
        ∧ (run cx s (hs.map Event.get_block)).state.m_pending_get_block_handlers
            = s.m_pending_get_block_handlers ++ hs) :=
  ⟨run_get_blocks_sent_le cx es s, run_get_block_calls cx hs s⟩

/-- Witness of C6 amended: three `get_block` calls on the freshly connected link. -/
theorem C6_outstanding_get_block_witness :
    (run spec_codec connected_link ([1, 2, 3].map Event.get_block)).fault = false
    ∧ get_blocks_sent (run spec_codec connected_link ([1, 2, 3].map Event.get_block)).effects
        = [1, 2, 3].length
    ∧ (run spec_codec connected_link
          ([1, 2, 3].map Event.get_block)).state.m_pending_get_block_handlers
        = connected_link.m_pending_get_block_handlers ++ [1, 2, 3] :=
  (C6_outstanding_get_block spec_codec connected_link [] [1, 2, 3]).2 (by decide)

/-- C7, obsolete block is discarded: for every link state and every BLOCK_DATA packet whose
block height differs from the current height, `process_data` calls no consumer, transmits
nothing and leaves the whole link state (current height, consumer flag, miner FIFO)
unchanged. -/
theorem C7_obsolete_block_discarded {H : Type} (cx : Codec) (s : Wallet_connection H)
    (packet : Packet) (hhdr : packet.m_header = Header.BLOCK_DATA)
    (hheight : (cx.deserialize_block packet.m_data).nHeight ≠ s.m_current_height) :
    process_data cx s packet = { state := s, effects := [], fault := false } := by
  simp only [process_data]
  repeat' split
  all_goals simp_all

/-- Witness of C7: a block of height 99 arriving at height 100. -/
theorem C7_obsolete_block_discarded_witness :
    process_data spec_codec (link100 [7]) (block_data_packet 99)
      = { state := link100 [7], effects := [], fault := false } :=
  C7_obsolete_block_discarded spec_codec (link100 [7]) (block_data_packet 99)
    (by decide) (by decide)

/-- C8, scenario "miner GET_BLOCK then new height": from a connected link at height 100 with
the pool manager alive, an empty FIFO and the flag clear, the trace get_block(h1);
BLOCK_HEIGHT=101; BLOCK_DATA(101); get_block(h2); BLOCK_DATA(101) runs without fault, hands
the first block to the pool manager only and the second to handler h2 only (h1 is never
called), and ends at height 101 with the flag clear and an empty FIFO. -/
theorem C8_miner_get_block_then_new_height {H : Type} (cx : Codec) (s : Wallet_connection H)
    (h1 h2 : H) (ph pb1 pb2 : Packet)
    (hconn : s.m_connection = true) (hpm : s.m_pool_manager = true)
    (hheight : s.m_current_height = 100) (hflag : s.m_get_block_pool_manager = false)
    (hfifo : s.m_pending_get_block_handlers = [])
    (hph : cx.is_valid ph = true ∧ ph.m_header = Header.BLOCK_HEIGHT
      ∧ cx.bytes2uint ph.m_data = 101)
    (hpb1 : cx.is_valid pb1 = true ∧ pb1.m_header = Header.BLOCK_DATA
      ∧ (cx.deserialize_block pb1.m_data).nHeight = 101)
    (hpb2 : cx.is_valid pb2 = true ∧ pb2.m_header = Header.BLOCK_DATA
      ∧ (cx.deserialize_block pb2.m_data).nHeight = 101) :
    run cx s [Event.get_block h1, Event.receive ph, Event.receive pb1,
              Event.get_block h2, Event.receive pb2] =
      { state := { s with
          m_current_height := 101
          m_get_block_pool_manager := false
          m_pending_get_block_handlers := [] }
        effects := [Effect.transmit (Packet.get_packet Header.GET_BLOCK),
                    Effect.set_current_height 101,
                    Effect.transmit (Packet.get_packet Header.GET_BLOCK),
                    Effect.set_block (cx.deserialize_block pb1.m_data),
                    Effect.transmit (Packet.get_packet Header.GET_BLOCK),
                    Effect.handler h2 (cx.deserialize_block pb2.m_data)]
        fault := false } := by
  obtain ⟨v1, a1, b1⟩ := hph
  obtain ⟨v2, a2, b2⟩ := hpb1
  obtain ⟨v3, a3, b3⟩ := hpb2
  simp [run, Event.apply, get_block, process_data, hconn, hpm, hheight, hflag, hfifo,
    v1, a1, b1, v2, a2, b2, v3, a3, b3]

/-- Witness of C8: the scenario on the concrete codec, with handlers 1 and 2. -/
theorem C8_miner_get_block_then_new_height_witness :
    run spec_codec (link100 [])
        [Event.get_block 1, Event.receive (block_height_packet 101),
         Event.receive (block_data_packet 101), Event.get_block 2,
         Event.receive (block_data_packet 101)] =
      { state := { link100 [] with m_current_height := 101 }
        effects := [Effect.transmit (Packet.get_packet Header.GET_BLOCK),
                    Effect.set_current_height 101,
                    Effect.transmit (Packet.get_packet Header.GET_BLOCK),
                    Effect.set_block (deserialize_block (uint2bytes 101)),
                    Effect.transmit (Packet.get_packet Header.GET_BLOCK),
                    Effect.handler 2 (deserialize_block (uint2bytes 101))]
        fault := false } :=
  C8_miner_get_block_then_new_height spec_codec (link100 []) 1 2 (block_height_packet 101)
    (block_data_packet 101) (block_data_packet 101) (by decide) (by decide) (by decide)
    (by decide) (by decide) (by decide) (by decide) (by decide)

/-- C9 as stated fails: for an empty block and an empty nonce (0 bytes, not 72)
`submit_block` still transmits a SUBMIT_BLOCK packet, with declared length 72 and an empty
payload. -/
theorem C9_submit_block_counterexample :
    ([] : List Nat).length + ([] : List Nat).length ≠ 72
    ∧ submit_block (link100 []) [] [] =
        { state := link100 []
          effects := [Effect.transmit
            { m_header := Header.SUBMIT_BLOCK, m_length := 72, m_data := [] }]
          fault := false } := by
  decide

/-- C9 amended: on a connected link `submit_block` transmits, for every block and nonce and
without any size check, exactly one SUBMIT_BLOCK packet whose payload is the block bytes
followed by the nonce bytes and whose declared length is 72; when the two sizes total 72
the payload is exactly 72 bytes and the declared length equals the payload size. -/
theorem C9_submit_block {H : Type} (s : Wallet_connection H) (block_data nonce : List Nat)
    (hconn : s.m_connection = true) :
    submit_block s block_data nonce =
        { state := s
          effects := [Effect.transmit
            { m_header := Header.SUBMIT_BLOCK, m_length := 72, m_data := block_data ++ nonce }]
          fault := false }
    ∧ ∀ p, Effect.transmit p ∈ (submit_block s block_data nonce).effects →
        block_data.length + nonce.length = 72 →
          p.m_data.length = 72 ∧ p.m_length = p.m_data.length := by
  have h : submit_block s block_data nonce =
        { state := s
          effects := [Effect.transmit
            { m_header := Header.SUBMIT_BLOCK, m_length := 72, m_data := block_data ++ nonce }]
          fault := false } := by
    simp [submit_block, hconn]
  refine ⟨h, ?_⟩
  intro p hp hsize
  rw [h] at hp
  simp only [List.mem_singleton, Effect.transmit.injEq] at hp
  subst hp
  simp [hsize]

/-- Witness of C9 amended: a 64-byte block and an 8-byte nonce give a 72-byte payload whose
size is the declared length. -/
theorem C9_submit_block_witness :
    (link100 []).m_connection = true
    ∧ (List.replicate 64 1 ++ List.replicate 8 2).length = 72
    ∧ (72 : Nat) = (List.replicate 64 1 ++ List.replicate 8 2).length :=
  ⟨by decide,
   (C9_submit_block (link100 []) (List.replicate 64 1) (List.replicate 8 2) (by decide)).2
     { m_header := Header.SUBMIT_BLOCK, m_length := 72
       m_data := List.replicate 64 1 ++ List.replicate 8 2 }
     (by simp [submit_block, link100]) (by decide)⟩

/-- C10, handshake: whenever the connect handler of a link that holds its connection is
called with `connection_ok`, on the first connect or any later one, it transmits exactly
one SET_CHANNEL packet with declared length 4 whose payload encodes 1 for PRIME and 2 for
every other mode, then starts the get-height timer with the configured
`get_height_interval`, and changes nothing in the link. -/
theorem C10_handshake {H : Type} (cx : Codec) (ep : Endpoint) (s : Wallet_connection H)
    (receive_buffer : Packet) (hconn : s.m_connection = true) :
    connect_handler cx ep s Result.connection_ok receive_buffer =
      { state := s
        effects := [Effect.transmit
            { m_header := Header.SET_CHANNEL, m_length := 4
              m_data := cx.uint2bytes (spec_channel s.m_mining_mode) },
          Effect.start_get_height_timer s.m_get_height_interval]
        fault := false } := by
  cases hm : s.m_mining_mode <;> simp [connect_handler, hconn, hm, spec_channel]

/-- Witness of C10: the PRIME link announces channel 1 as four bytes. -/
theorem C10_handshake_witness :
    connect_handler spec_codec wallet_endpoint0 (link100 []) Result.connection_ok
        (block_data_packet 0) =
      { state := link100 []
        effects := [Effect.transmit
            { m_header := Header.SET_CHANNEL, m_length := 4, m_data := [0, 0, 0, 1] },
          Effect.start_get_height_timer 2]
        fault := false } :=
  C10_handshake spec_codec wallet_endpoint0 (link100 []) (block_data_packet 0) (by decide)

/-- C11 as stated fails: an invalid packet received on a connected link leaves the link
connected and starts no retry timer; so does a valid packet whose header (GET_HEIGHT) is
none of the five that `process_data` handles. -/
theorem C11_bad_input_counterexample :
    (link100 [7]).m_connection = true
    ∧ spec_codec.is_valid unknown_packet = false
    ∧ (process_data spec_codec (link100 [7]) unknown_packet).state.m_connection = true
    ∧ (process_data spec_codec (link100 [7]) unknown_packet).effects.filter
        Effect.is_retry_timer = []
    ∧ spec_codec.is_valid (Packet.get_packet Header.GET_HEIGHT) = true
    ∧ (process_data spec_codec (link100 [7])
        (Packet.get_packet Header.GET_HEIGHT)).state.m_connection = true
    ∧ (process_data spec_codec (link100 [7])
        (Packet.get_packet Header.GET_HEIGHT)).effects.filter Effect.is_retry_timer = [] := by
  decide

/-- C11 amended: on a connected link, a packet that is invalid, or valid with a header that
is none of PING, BLOCK_HEIGHT, BLOCK_DATA, ACCEPT, REJECT, is only logged: `process_data`
keeps the connection, starts no timer, calls nobody and leaves the link state unchanged. -/
theorem C11_bad_input {H : Type} (cx : Codec) (s : Wallet_connection H) (packet : Packet)
    (hconn : s.m_connection = true)
    (hbad : cx.is_valid packet = false
      ∨ (packet.m_header ≠ Header.PING ∧ packet.m_header ≠ Header.BLOCK_HEIGHT
          ∧ packet.m_header ≠ Header.BLOCK_DATA ∧ packet.m_header ≠ Header.ACCEPT
          ∧ packet.m_header ≠ Header.REJECT)) :
    process_data cx s packet = { state := s, effects := [], fault := false }
    ∧ (process_data cx s packet).state.m_connection = true := by
  have h : process_data cx s packet = { state := s, effects := [], fault := false } := by
    rcases hbad with hv | ⟨n1, n2, n3, n4, n5⟩
    · simp [process_data, hconn, hv]
    · simp [process_data, hconn, n1, n2, n3, n4, n5]
  exact ⟨h, by rw [h]; exact hconn⟩

/-- Witness of C11 amended: a packet with an unrecognised header on the link at height 100. -/
theorem C11_bad_input_witness :
    process_data spec_codec (link100 [7]) unknown_packet
      = { state := link100 [7], effects := [], fault := false }
    ∧ (process_data spec_codec (link100 [7]) unknown_packet).state.m_connection = true :=
  C11_bad_input spec_codec (link100 [7]) unknown_packet (by decide) (Or.inl (by decide))

/-- C12 as stated fails: with the pool manager gone, a valid BLOCK_HEIGHT packet carrying 50
at height 100 on a connected link leads to no `set_current_height` call at all. -/
theorem C12_stale_height_counterexample :
    (link100_no_pool_manager [7]).m_connection = true
    ∧ spec_codec.is_valid (block_height_packet 50) = true
    ∧ spec_codec.bytes2uint (block_height_packet 50).m_data
        ≤ (link100_no_pool_manager [7]).m_current_height
    ∧ ¬ Effect.set_current_height 100
        ∈ (process_data spec_codec (link100_no_pool_manager [7]) (block_height_packet 50)).effects := by
  decide

/-- C12 amended, stale height: on a connected link at height `c`, a valid BLOCK_HEIGHT packet
carrying `h ≤ c` makes `process_data`, when the pool manager is alive, call
`set_current_height` with `c` (not `h`) and nothing else; when the pool manager is gone it
calls nobody; either way no GET_BLOCK is transmitted and the current height, the consumer
flag and the miner FIFO are unchanged. -/
theorem C12_stale_height {H : Type} (cx : Codec) (s : Wallet_connection H) (packet : Packet)
    (hconn : s.m_connection = true) (hvalid : cx.is_valid packet = true)
    (hhdr : packet.m_header = Header.BLOCK_HEIGHT)
    (hle : cx.bytes2uint packet.m_data ≤ s.m_current_height) :
    (s.m_pool_manager = true →
      process_data cx s packet =
        { state := s, effects := [Effect.set_current_height s.m_current_height], fault := false })
    ∧ (s.m_pool_manager = false →
      process_data cx s packet = { state := s, effects := [], fault := false })
    ∧ get_blocks_sent (process_data cx s packet).effects = 0
    ∧ (process_data cx s packet).state = s := by
  have hng : ¬ cx.bytes2uint packet.m_data > s.m_current_height := Nat.not_lt.mpr hle
  cases hpm : s.m_pool_manager <;>
    simp [process_data, hconn, hvalid, hhdr, hpm, hng, get_blocks_sent, Effect.transmits]

/-- Witness of C12 amended: height 50 arriving at height 100, pool manager alive. -/
theorem C12_stale_height_witness :
    process_data spec_codec (link100 [7]) (block_height_packet 50) =
      { state := link100 [7], effects := [Effect.set_current_height 100], fault := false } :=
  (C12_stale_height spec_codec (link100 [7]) (block_height_packet 50)
    (by decide) (by decide) (by decide) (by decide)).1 (by decide)

/-- C13, control packets: on a connected link `process_data` answers a valid PING with
exactly one PING packet, a valid REJECT with exactly one GET_BLOCK packet and a valid
ACCEPT with nothing; in all three cases the link state (current height, consumer flag,
miner FIFO) is unchanged and no consumer is called. -/
theorem C13_control_packets {H : Type} (cx : Codec) (s : Wallet_connection H) (packet : Packet)
    (hconn : s.m_connection = true) (hvalid : cx.is_valid packet = true) :
    (packet.m_header = Header.PING →
      process_data cx s packet =
        { state := s
          effects := [Effect.transmit (Packet.get_packet Header.PING)]
          fault := false })
    ∧ (packet.m_header = Header.REJECT →
      process_data cx s packet =
        { state := s
          effects := [Effect.transmit (Packet.get_packet Header.GET_BLOCK)]
          fault := false })
    ∧ (packet.m_header = Header.ACCEPT →
      process_data cx s packet = { state := s, effects := [], fault := false })
    ∧ ((packet.m_header = Header.PING ∨ packet.m_header = Header.REJECT
          ∨ packet.m_header = Header.ACCEPT) →
        (process_data cx s packet).state = s
        ∧ deliveries (process_data cx s packet).effects = 0
        ∧ (process_data cx s packet).effects.filter
            (fun e => Effect.is_delivery e || Effect.is_handler_call e) = []) := by
  refine ⟨?_, ?_, ?_, ?_⟩
  · intro h
    simp [process_data, hconn, hvalid, h]
  · intro h
    simp [process_data, hconn, hvalid, h]
  · intro h
    simp [process_data, hconn, hvalid, h]
  · intro h
    rcases h with h | h | h <;>
      simp [process_data, hconn, hvalid, h, deliveries, Effect.is_delivery,
        Effect.is_handler_call]

/-- Witness of C13: a REJECT on the link at height 100 with handler 7 pending. -/
theorem C13_control_packets_witness :
    process_data spec_codec (link100 [7]) (Packet.get_packet Header.REJECT) =
      { state := link100 [7]
        effects := [Effect.transmit (Packet.get_packet Header.GET_BLOCK)]
        fault := false } :=
  (C13_control_packets spec_codec (link100 [7]) (Packet.get_packet Header.REJECT)
    (by decide) (by decide)).2.1 (by decide)

/-- C14, reconnect on failure: for each of the results connection_declined,
connection_aborted, connection_closed and connection_error the connect handler drops the
connection and starts the connection-retry timer with the configured
`connection_retry_interval` and the same wallet endpoint, leaving the current height (and
every other member) as it was; and any number of such failures in a row each start that
timer again, with the same interval and endpoint. -/
theorem C14_reconnect_on_failure {H : Type} (cx : Codec) (ep : Endpoint)
    (s : Wallet_connection H) (result : Result) (receive_buffer : Packet) (rs : List Result)
    (hres : result = Result.connection_declined ∨ result = Result.connection_aborted
      ∨ result = Result.connection_closed ∨ result = Result.connection_error)
    (hrs : ∀ r ∈ rs, r = Result.connection_declined ∨ r = Result.connection_aborted
      ∨ r = Result.connection_closed ∨ r = Result.connection_error) :
    connect_handler cx ep s result receive_buffer =
      { state := { s with m_connection := false }
        effects := [Effect.start_connection_retry_timer s.m_connection_retry_interval ep]
        fault := false }
    ∧ (connect_handler cx ep s result receive_buffer).state.m_current_height
        = s.m_current_height
    ∧ (handle_results cx ep receive_buffer s rs).fault = false
    ∧ (handle_results cx ep receive_buffer s rs).effects
        = rs.map (fun _ => Effect.start_connection_retry_timer s.m_connection_retry_interval ep)
    ∧ (handle_results cx ep receive_buffer s rs).state.m_current_height
        = s.m_current_height := by
  have hf : result.is_failure = true := by
    rcases hres with h | h | h | h <;> simp [h, Result.is_failure]
  have hfs : ∀ r ∈ rs, r.is_failure = true := by
    intro r hr
    rcases hrs r hr with h | h | h | h <;> simp [h, Result.is_failure]
  have h1 := connect_handler_failure cx ep s result receive_buffer hf
  refine ⟨h1, by rw [h1], handle_results_failures cx ep receive_buffer rs s hfs⟩

/-- Witness of C14: a declined connection, then three failures in a row, on the link at
height 100 with retry interval 5. -/
theorem C14_reconnect_on_failure_witness :
    connect_handler spec_codec wallet_endpoint0 (link100 [7]) Result.connection_declined
        unknown_packet =
      { state := { link100 [7] with m_connection := false }
        effects := [Effect.start_connection_retry_timer 5 wallet_endpoint0]
        fault := false }
    ∧ (handle_results spec_codec wallet_endpoint0 unknown_packet (link100 [7])
        [Result.connection_error, Result.connection_closed, Result.connection_aborted]).effects
        = [Effect.start_connection_retry_timer 5 wallet_endpoint0,
           Effect.start_connection_retry_timer 5 wallet_endpoint0,
           Effect.start_connection_retry_timer 5 wallet_endpoint0] :=
  have h := C14_reconnect_on_failure spec_codec wallet_endpoint0 (link100 [7])
    Result.connection_declined unknown_packet
    [Result.connection_error, Result.connection_closed, Result.connection_aborted]
    (Or.inl rfl) (by decide)
  ⟨h.1, h.2.2.2.1⟩

/-- C15, configuration commands: `get_config` on an empty table returns the domain-empty
value (empty version and mode strings) instead of failing; `create_config` on the empty
table returns true and `get_config` then returns exactly the mode, fee and divider given;
a following `update_config` returns true and `get_config` then returns exactly the new
mode, fee and divider; for every mode string and all integers. -/
theorem C15_config_round_trip (version mode mode' : String) (fee div fee' div' : Int) :
    persistance.get_config []
      = { m_version := "", m_mining_mode := "", m_fee := 0, m_difficulty_divider := 0 }
    ∧ (persistance.create_config version [] mode fee div).2 = true
    ∧ (persistance.get_config (persistance.create_config version [] mode fee div).1).m_mining_mode
        = mode
    ∧ (persistance.get_config (persistance.create_config version [] mode fee div).1).m_fee = fee
    ∧ (persistance.get_config
        (persistance.create_config version [] mode fee div).1).m_difficulty_divider = div
    ∧ (persistance.update_config (persistance.create_config version [] mode fee div).1
        mode' fee' div').2 = true
    ∧ persistance.get_config (persistance.update_config
        (persistance.create_config version [] mode fee div).1 mode' fee' div').1
        = { m_version := version, m_mining_mode := mode', m_fee := fee',
            m_difficulty_divider := div' } := by
  simp [persistance.get_config, persistance.select_config, persistance.create_config,
    persistance.update_config]

/-- C16 as stated fails for overlapping ranges.  Copying cells 0, 1, 2 to cells 1, 2, 3
passes the three checks and returns, but destination element 1 then holds 0 where source
element 1 held 10.  Copying cells 1, 2, 3 to cells 0, 1, 2 passes the checks and returns,
but afterwards destination element 0 holds 10 while source element 0 holds 20. -/
theorem C16_memory_copy_counterexample :
    ¬ ((3 : Nat) < 0 ∨ (4 : Nat) < 1 ∨ ((3 : Nat) : Int) - ((0 : Nat) : Int)
        ≠ ((4 : Nat) : Int) - ((1 : Nat) : Int))
    ∧ (memory.copy memory.sample_mem 0 3 1 4).outcome = memory.Outcome.returned
    ∧ (memory.copy memory.sample_mem 0 3 1 4).mem (1 + 1) = 0
    ∧ memory.sample_mem (0 + 1) = 10
    ∧ (memory.copy memory.sample_mem 0 3 1 4).mem (1 + 1) ≠ memory.sample_mem (0 + 1)
    ∧ ¬ ((4 : Nat) < 1 ∨ (3 : Nat) < 0 ∨ ((4 : Nat) : Int) - ((1 : Nat) : Int)
        ≠ ((3 : Nat) : Int) - ((0 : Nat) : Int))
    ∧ (memory.copy memory.sample_mem 1 4 0 3).outcome = memory.Outcome.returned
    ∧ (memory.copy memory.sample_mem 1 4 0 3).mem (0 + 0) = 10
    ∧ (memory.copy memory.sample_mem 1 4 0 3).mem (1 + 0) = 20
    ∧ (memory.copy memory.sample_mem 1 4 0 3).mem (0 + 0)
        ≠ (memory.copy memory.sample_mem 1 4 0 3).mem (1 + 0) := by
  decide

/-- C16 amended, `memory::copy` is a size-checked copy: it throws exactly when
`src_end < src_begin`, or `dst_end < dst_begin`, or the two ranges differ in length, and
then leaves the memory as it was; otherwise it returns without throwing.  When the
destination does not begin inside the source range, every destination element then holds
what the matching source element held before the call and every cell outside the
destination is unchanged; when the two ranges do not overlap, the destination range
afterwards equals the source range element for element. -/
theorem C16_memory_copy {α : Type} (mem : Nat → α) (src_begin src_end dst_begin dst_end : Nat) :
    ((∃ what, (memory.copy mem src_begin src_end dst_begin dst_end).outcome
          = memory.Outcome.thrown what)
      ↔ (src_end < src_begin ∨ dst_end < dst_begin
          ∨ (src_end : Int) - (src_begin : Int) ≠ (dst_end : Int) - (dst_begin : Int)))
    ∧ ((∃ what, (memory.copy mem src_begin src_end dst_begin dst_end).outcome
          = memory.Outcome.thrown what)
        → (memory.copy mem src_begin src_end dst_begin dst_end).mem = mem)
    ∧ (¬ (src_end < src_begin ∨ dst_end < dst_begin
          ∨ (src_end : Int) - (src_begin : Int) ≠ (dst_end : Int) - (dst_begin : Int))
        → (memory.copy mem src_begin src_end dst_begin dst_end).outcome
            = memory.Outcome.returned)
    ∧ (¬ (src_end < src_begin ∨ dst_end < dst_begin
          ∨ (src_end : Int) - (src_begin : Int) ≠ (dst_end : Int) - (dst_begin : Int))
        → ¬ (src_begin ≤ dst_begin ∧ dst_begin < src_end)
        → (∀ i, i < src_end - src_begin →
              (memory.copy mem src_begin src_end dst_begin dst_end).mem (dst_begin + i)
                = mem (src_begin + i))
          ∧ (∀ a, (a < dst_begin ∨ dst_end ≤ a) →
              (memory.copy mem src_begin src_end dst_begin dst_end).mem a = mem a))
    ∧ (¬ (src_end < src_begin ∨ dst_end < dst_begin
          ∨ (src_end : Int) - (src_begin : Int) ≠ (dst_end : Int) - (dst_begin : Int))
        → (src_end ≤ dst_begin ∨ dst_end ≤ src_begin)
        → ∀ i, i < src_end - src_begin →
            (memory.copy mem src_begin src_end dst_begin dst_end).mem (dst_begin + i)
              = (memory.copy mem src_begin src_end dst_begin dst_end).mem (src_begin + i)) := by
  have hcopy : ¬ (src_end < src_begin ∨ dst_end < dst_begin
        ∨ (src_end : Int) - (src_begin : Int) ≠ (dst_end : Int) - (dst_begin : Int)) →
      memory.copy mem src_begin src_end dst_begin dst_end =
        { mem := memory.std_copy_loop mem src_begin dst_begin (src_end - src_begin)
          outcome := memory.Outcome.returned } := by
    intro hno
    push_neg at hno
    obtain ⟨h1, h2, h3⟩ := hno
    unfold memory.copy memory.std_copy
    rw [if_neg (by omega), if_neg (by omega), if_neg (by simpa using h3)]
  refine ⟨?_, ?_, ?_, ?_, ?_⟩
  · constructor
    · rintro ⟨what, h⟩
      by_contra hno
      rw [hcopy hno] at h
      simp at h
    · intro h
      unfold memory.copy
      by_cases h1 : src_end < src_begin
      · exact ⟨_, by rw [if_pos h1]⟩
      · by_cases h2 : dst_end < dst_begin
        · exact ⟨_, by rw [if_neg h1, if_pos h2]⟩
        · have h3 : (src_end : Int) - (src_begin : Int) ≠ (dst_end : Int) - (dst_begin : Int) := by
            rcases h with h | h | h
            · exact absurd h h1
            · exact absurd h h2
            · exact h
          exact ⟨_, by rw [if_neg h1, if_neg h2, if_pos h3]⟩
  · rintro ⟨what, h⟩
    unfold memory.copy at h ⊢
    split_ifs at h ⊢ with h1 h2 h3
    · rfl
    · rfl
    · rfl
  · intro hno
    rw [hcopy hno]
  · intro hno hdef
    rw [hcopy hno]
    push_neg at hno
    obtain ⟨h1, h2, h3⟩ := hno
    refine ⟨?_, ?_⟩
    · intro i hi
      exact std_copy_loop_values _ mem src_begin dst_begin (by omega) i hi
    · intro a ha
      exact std_copy_loop_frame _ mem src_begin dst_begin a (by omega)
  · intro hno hdisj i hi
    rw [hcopy hno]
    push_neg at hno
    obtain ⟨h1, h2, h3⟩ := hno
    show memory.std_copy_loop mem src_begin dst_begin (src_end - src_begin) (dst_begin + i)
      = memory.std_copy_loop mem src_begin dst_begin (src_end - src_begin) (src_begin + i)
    rw [std_copy_loop_values _ mem src_begin dst_begin (by omega) i hi,
      std_copy_loop_frame _ mem src_begin dst_begin (src_begin + i) (by omega)]

/-- Witness of C16 amended: copying cells 4, 5, 6 of the sample memory to cells 0, 1, 2
returns; cell 1 then holds what cell 5 held, cell 5 is unchanged, and destination element 1
equals source element 1. -/
theorem C16_memory_copy_witness :
    (memory.copy memory.sample_mem 4 7 0 3).outcome = memory.Outcome.returned
    ∧ (memory.copy memory.sample_mem 4 7 0 3).mem (0 + 1) = memory.sample_mem (4 + 1)
    ∧ (memory.copy memory.sample_mem 4 7 0 3).mem 5 = memory.sample_mem 5
    ∧ (memory.copy memory.sample_mem 4 7 0 3).mem (0 + 1)
        = (memory.copy memory.sample_mem 4 7 0 3).mem (4 + 1) :=
  have h := C16_memory_copy memory.sample_mem 4 7 0 3
  ⟨h.2.2.1 (by decide),
   (h.2.2.2.1 (by decide) (by decide)).1 1 (by decide),
   (h.2.2.2.1 (by decide) (by decide)).2 5 (by decide),
   h.2.2.2.2 (by decide) (by decide) 1 (by decide)⟩

/-- C17 fails on the code: on the freshly connected link, after get_block(1), a valid
BLOCK_HEIGHT carrying 1 and the first valid BLOCK_DATA of height 1 (taken by the pool
manager), the link is at height 1 with the flag clear and an empty FIFO; the second valid
BLOCK_DATA of height 1, the wallet's answer to the other GET_BLOCK, makes `process_data`
take the front of the empty queue. -/
theorem C17_fifo_read_when_empty :
    (run spec_codec connected_link
        [Event.get_block 1, Event.receive (block_height_packet 1),
         Event.receive (block_data_packet 1)]).fault = false
    ∧ get_blocks_sent (run spec_codec connected_link
        [Event.get_block 1, Event.receive (block_height_packet 1),
         Event.receive (block_data_packet 1)]).effects = 2
    ∧ (run spec_codec connected_link
        [Event.get_block 1, Event.receive (block_height_packet 1),
         Event.receive (block_data_packet 1)]).state
        = { connected_link with m_current_height := 1 }
    ∧ spec_codec.is_valid (block_data_packet 1) = true
    ∧ (spec_codec.deserialize_block (block_data_packet 1).m_data).nHeight = 1
    ∧ (process_data spec_codec ({ connected_link with m_current_height := 1 })
        (block_data_packet 1)).fault = true
    ∧ (run spec_codec connected_link
        [Event.get_block 1, Event.receive (block_height_packet 1),
         Event.receive (block_data_packet 1), Event.receive (block_data_packet 1)]).fault
        = true := by
  decide

/-- C18 fails on the code for `submit_block`: on a link without connection (after `stop` or
`retry_connect`) `process_data` and `get_block` return without any call and without
changing the link, but `submit_block` calls through the null connection. -/
theorem C18_disconnected_operations {H : Type} (cx : Codec) (s : Wallet_connection H)
    (ep : Endpoint) (packet : Packet) (handler : H) (block_data nonce : List Nat) :
    (stop s).state.m_connection = false
    ∧ (retry_connect s ep).state = (stop s).state
    ∧ process_data cx (stop s).state packet
        = { state := (stop s).state, effects := [], fault := false }
    ∧ get_block (stop s).state handler
        = { state := (stop s).state, effects := [], fault := false }
    ∧ submit_block (stop s).state block_data nonce
        = { state := (stop s).state, effects := [], fault := true } := by
  simp [stop, retry_connect, process_data, get_block, submit_block]

end nexuspool
